import Mathlib

/-!
Verification development for the `macroquad-video` player
(`src/main.rs`).  The Rust program decodes a muxed media file with
ffmpeg, routes demuxed packets to a video and an audio pipeline,
materializes the audio track as a WAV buffer, and paces video frames
against a per-frame "debt" accumulator (`VideoPlayer::frame_limiter`).

All durations are modelled in milliseconds as `Nat` (Rust `Duration`
is a non-negative quantity; `Duration::saturating_sub` is `Nat`
subtraction, ordinary `Duration` subtraction only occurs under a
guard that prevents underflow).  Iterators are modelled as lists,
fallible calls as `Option`.
-/

namespace MacroquadVideo

/-! ## Playback pacer (`VideoPlayer::frame_limiter`, main.rs 174-199)

The Rust method reads `elapsed = self.instant.elapsed()` from the
ambient monotonic clock and compares it with
`frame_duration = 1/frame_rate`.  The model takes both as explicit
`Nat` arguments (milliseconds).  `self.broken` is the debt
accumulator.  The method body is:

```rust
if elapsed < frame_duration {
    if frame_duration - elapsed >= self.broken {
        sleep(frame_duration - elapsed - self.broken);
        self.broken = Duration::ZERO;
    } else {
        sleep(Duration::ZERO);
        self.broken = self.broken.saturating_sub(frame_duration - elapsed);
    }
} else {
    if self.broken > Duration::from_millis(1000) { error!(..); }
    self.broken += elapsed - frame_duration;
    warn!(..);
}
self.instant = Instant::now();
```
-/

/-- Observable outcome of one `frame_limiter` call: how long it slept
(`sleep(Duration::ZERO)` and the no-sleep behind-schedule branch both
show up as `0`), the new value of the `broken` debt accumulator, and
which of the two log messages fired (`error!` = extended-debt
advisory, `warn!` = per-frame overrun warning). -/
structure LimiterResult where
  sleepTime : Nat
  broken : Nat
  extendedDebtWarning : Bool
  overrunWarning : Bool
deriving DecidableEq, Repr

/-- One step of `VideoPlayer::frame_limiter`, with the frame interval
(`frame_duration`), the debt entering the call (`self.broken`) and the
measured `elapsed` as explicit milliseconds. -/
def frame_limiter (frameInterval broken elapsed : Nat) : LimiterResult :=
  if elapsed < frameInterval then
    if frameInterval - elapsed ≥ broken then
      { sleepTime := frameInterval - elapsed - broken
        broken := 0
        extendedDebtWarning := false
        overrunWarning := false }
    else
      { sleepTime := 0
        broken := broken - (frameInterval - elapsed)
        extendedDebtWarning := false
        overrunWarning := false }
  else
    { sleepTime := 0
      broken := broken + (elapsed - frameInterval)
      extendedDebtWarning := decide (1000 < broken)
      overrunWarning := true }

/-- Consecutive `frame_limiter` calls, one per rendered frame, threading
the `broken` debt through.  Each list element is that frame's measured
`elapsed`; since the Rust method resets `self.instant = Instant::now()`
after its sleep, `elapsed` is the frame's render time, excluding the
previous frame's sleep. -/
def runLimiter (frameInterval : Nat) (broken : Nat) : List Nat → List LimiterResult
  | [] => []
  | e :: es =>
    let r := frame_limiter frameInterval broken e
    r :: runLimiter frameInterval r.broken es

/-! ## Packet router (`get_video_player`, main.rs 244-251)

```rust
let packets = input.packets().filter_map(Result::ok);
let (video_packets, not_video_packets): (Vec<_>, Vec<_>) =
    packets.partition(|x| x.0.index() == vstream_id);
let audio_packets = not_video_packets
    .into_iter()
    .filter(move |x| x.0.index() == astream_id);
```

A demuxed packet is modelled by its owning stream index plus an
identifying tag for the opaque payload. -/

/-- A demuxed `(Stream, Packet)` pair: the router only inspects
`x.0.index()`; `tag` stands for the rest of the packet. -/
structure DemuxedPacket where
  streamIndex : Nat
  tag : Nat
deriving DecidableEq, Repr

/-- The packet router: `partition` on the video stream index, then
`filter` of the non-video remainder on the audio stream index.  Returns
`(video_packets, audio_packets)`. -/
def routePackets (vstreamId astreamId : Nat) (packets : List DemuxedPacket) :
    List DemuxedPacket × List DemuxedPacket :=
  let part := packets.partition fun x => x.streamIndex == vstreamId
  (part.1, part.2.filter fun x => x.streamIndex == astreamId)

/-! ## Decode pipelines (`decode_frame`, main.rs 107-159)

Both pipelines have the shape

```rust
packets.map(|x| x.1)
    .chain(std::iter::once(Packet::empty()))
    .filter_map(move |packet| {
        if packet.is_empty() { decoder.send_eof().ok()?; }
        else { decoder.send_packet(&packet).ok()?; }
        let mut out = Vec::new();
        while decoder.receive_frame(&mut decoded).is_ok() {
            per_frame_stage(&decoded).ok()?;   // resampler / scaler.run
            out.push(..);
        }
        Some(out)
    })
    .flatten()
```

and the video pipeline appends
`.map(retain_aspect_ratio_scale).map_while(Result::ok)`.

The external ffmpeg decoder is a parameter: `sendOk s` tells whether
`send_packet`/`send_eof` succeeds for submission `s` (`some p` a real
packet, `none` the empty sentinel, on which the code calls
`send_eof`), and `deliver s` is the list of decoded frames the decoder
makes receivable after that submission — frames it buffers internally
(B-frames) appear in `deliver none`, the end-of-stream flush.  Frames
not yet received stay in an explicit queue.  The per-frame stage
(`resampler.run` for audio, `scaler.run` for video) is a parameter
`proc : F → Option G`; its failure makes the closure return `None`
mid-loop, discarding the batch vector built so far. -/

/-- The `while receive_frame is_ok` loop body of `decode_frame`: pop
each queued frame, apply the per-frame stage; a stage failure returns
`none` (the closure's `.ok()?`), dropping the batch collected so far
and leaving the unreceived frames in the decoder queue. -/
def drainLoop {F G : Type} (proc : F → Option G) : List F → Option (List G) × List F
  | [] => (some [], [])
  | f :: fs =>
    match proc f with
    | none => (none, fs)
    | some g =>
      match drainLoop proc fs with
      | (none, rest) => (none, rest)
      | (some gs, rest) => (some (g :: gs), rest)

/-- The `filter_map(..).flatten()` over a submission list, threading
the decoder's frame queue: a failed send skips the submission with the
queue untouched; a successful send appends `deliver s` to the queue and
runs the drain loop, whose batch (or nothing, on a per-frame failure)
is flattened into the output.  Returns `(output, final queue)`. -/
def pipelineSteps {P F G : Type} (sendOk : Option P → Bool)
    (deliver : Option P → List F) (proc : F → Option G) :
    List F → List (Option P) → List G × List F
  | q, [] => ([], q)
  | q, s :: ss =>
    if sendOk s then
      match drainLoop proc (q ++ deliver s) with
      | (batch, q2) =>
        match pipelineSteps sendOk deliver proc q2 ss with
        | (out, qf) => (batch.getD [] ++ out, qf)
    else pipelineSteps sendOk deliver proc q ss

/-- `.chain(std::iter::once(Packet::empty()))`: the real packets
followed by the single empty sentinel. -/
def withSentinel {P : Type} (packets : List P) : List (Option P) :=
  packets.map some ++ [none]

/-- `.map_while(Result::ok)`: emit mapped values until the first
failure, which ends the whole sequence. -/
def mapWhileOk {G T : Type} (f : G → Option T) : List G → List T
  | [] => []
  | g :: gs =>
    match f g with
    | none => []
    | some t => t :: mapWhileOk f gs

/-- The audio half of `decode_frame` (main.rs 107-134): submissions
with sentinel, per-packet drain with the resampler as per-frame stage,
flattened.  The decoder starts with an empty frame queue. -/
def audioPipeline {P F G : Type} (sendOk : Option P → Bool)
    (deliver : Option P → List F) (resample : F → Option G)
    (packets : List P) : List G :=
  (pipelineSteps sendOk deliver resample [] (withSentinel packets)).1

/-- The video half of `decode_frame` (main.rs 136-159): same structure
with `scaler.run` (pixel-format conversion) as per-frame stage, then
`retain_aspect_ratio_scale` under `map_while(Result::ok)`. -/
def videoPipeline {P F G T : Type} (sendOk : Option P → Bool)
    (deliver : Option P → List F) (swscale : F → Option G)
    (rars : G → Option T) (packets : List P) : List T :=
  mapWhileOk rars (pipelineSteps sendOk deliver swscale [] (withSentinel packets)).1

/-! ## Render callback (`VideoPlayer::draw_video_by_frame`, main.rs 201-226)

```rust
clear_background(BLACK);
if self.frames_played == 0 { play_sound_once(&self.audio); }
let Some(texture) = &self.frames.next() else { return; };
draw_texture(..); draw_text(..);
self.frame_limiter();
self.frames_played += 1;
```

The mutable player (`frames`, `frames_played`, `instant`, `broken`)
is explicit state; the remaining video frame sequence is a list, the
frame interval replaces the stored `frame_rate` (the method only uses
`1/frame_rate`), and the ambient clock is the `now` argument: the
measured `elapsed` is `now - instant`, and since `frame_limiter` sets
`self.instant = Instant::now()` right after its sleep, the new
`instant` is `now + sleepTime` for an idealized exact sleep. -/

/-- The mutable fields of `VideoPlayer` the render callback touches. -/
structure PlayerState (T : Type) where
  frames : List T
  frames_played : Nat
  frameInterval : Nat
  instant : Nat
  broken : Nat
deriving DecidableEq, Repr

/-- Observable outcome of one `draw_video_by_frame` call: the state
afterwards, whether `play_sound_once` ran, which frame (if any) was
drawn, and the sleep performed by `frame_limiter` (`none` when the
limiter was skipped by the early return on an empty pull). -/
structure DrawOutcome (T : Type) where
  state : PlayerState T
  soundTriggered : Bool
  drawn : Option T
  slept : Option Nat
deriving DecidableEq, Repr

/-- One render callback, `VideoPlayer::draw_video_by_frame`. -/
def draw_video_by_frame {T : Type} (now : Nat) (s : PlayerState T) : DrawOutcome T :=
  let triggered := s.frames_played == 0
  match s.frames with
  | [] =>
    { state := s, soundTriggered := triggered, drawn := none, slept := none }
  | t :: rest =>
    let r := frame_limiter s.frameInterval s.broken (now - s.instant)
    { state :=
        { frames := rest
          frames_played := s.frames_played + 1
          frameInterval := s.frameInterval
          instant := now + r.sleepTime
          broken := r.broken }
      soundTriggered := triggered
      drawn := some t
      slept := some r.sleepTime }

/-- The render loop of `main`: one `draw_video_by_frame` per display
refresh, at the given clock instants. -/
def runCallbacks {T : Type} (s : PlayerState T) : List Nat → List (DrawOutcome T)
  | [] => []
  | n :: ns =>
    let o := draw_video_by_frame n s
    o :: runCallbacks o.state ns

/-! ## Waveform serialization (`build_wav_from_raw`, main.rs 273-308)

```rust
let first = audio.peek().context("empty audio stream")?;
let channels = first.ch_layout().channels();
let mut writer = hound::WavWriter::new(cursor, hound::WavSpec {
    channels, sample_rate: first.rate(), bits_per_sample: 16,
    sample_format: hound::SampleFormat::Int })?;
for audio in audio {
    let data = audio.data(0);
    let sample_size = 2;
    let frame_size = sample_size * channels;
    for frame in data.chunks_exact(frame_size) {
        for ch in 0..channels {
            let i = (ch * sample_size) as usize;
            let sample = i16::from_le_bytes([frame[i], frame[i + 1]]);
            writer.write_sample(sample)?;
        }
    }
}
```

`peek` does not consume, so the `for` loop serializes every block
including the first.  The WAV container layout written by `hound` is
external; the model records the declared spec and the exact sequence
of samples written. -/

/-- One resampled PCM block (an ffmpeg `Audio` frame): its channel
count (`ch_layout().channels()`), sample rate (`rate()`), and the raw
bytes of `data(0)`. -/
structure PcmAudioFrame where
  channels : Nat
  rate : Nat
  data : List Nat
deriving DecidableEq, Repr

/-- The `hound::WavSpec` header fields. -/
structure WavSpec where
  channels : Nat
  sample_rate : Nat
  bits_per_sample : Nat
  sample_format_is_int : Bool
deriving DecidableEq, Repr

/-- `i16::from_le_bytes([b0, b1])` over byte values. -/
def i16FromLeBytes (b0 b1 : Nat) : Int :=
  let v := b0 % 256 + 256 * (b1 % 256)
  if v < 32768 then (v : Int) else (v : Int) - 65536

/-- `slice::chunks_exact(n)`: maximal list of consecutive length-`n`
chunks; a trailing remainder shorter than `n` yields no chunk. -/
def chunksExact {α : Type} (n : Nat) (l : List α) : List (List α) :=
  if _h : 0 < n ∧ n ≤ l.length then
    l.take n :: chunksExact n (l.drop n)
  else []
termination_by l.length
decreasing_by
  simp only [List.length_drop]
  omega

/-- The samples written for one block: its bytes are cut into
interleaved frames of `2 * channels` bytes (`chunks_exact`), and each
frame contributes one little-endian `i16` per channel, read at byte
offset `ch * 2`. -/
def blockSamples (channels : Nat) (data : List Nat) : List Int :=
  (chunksExact (2 * channels) data).flatMap fun frame =>
    (List.range channels).map fun ch =>
      i16FromLeBytes (frame.getD (2 * ch) 0) (frame.getD (2 * ch + 1) 0)

/-- `build_wav_from_raw`: fails on an empty block sequence ("empty
audio stream"); otherwise declares the header from the FIRST block and
serializes every block's samples with the first block's channel
count. -/
def build_wav_from_raw (blocks : List PcmAudioFrame) : Option (WavSpec × List Int) :=
  match blocks.head? with
  | none => none
  | some first =>
    some ({ channels := first.channels
            sample_rate := first.rate
            bits_per_sample := 16
            sample_format_is_int := true },
          blocks.flatMap fun b => blockSamples first.channels b.data)

/-! ## Theorems: playback pacer (claims about `frame_limiter`) -/

/-- **C1.** Per-frame pacer step ahead of schedule: with
`slack = frameInterval - elapsed`, if `slack ≥ debt` the step sleeps
`slack - debt` and zeroes the debt, otherwise it sleeps `0` and lowers
the debt by exactly `slack`; neither branch logs anything. -/
theorem frame_limiter_ahead_of_schedule (frameInterval broken elapsed : Nat)
    (h : elapsed < frameInterval) :
    (broken ≤ frameInterval - elapsed →
      frame_limiter frameInterval broken elapsed =
        { sleepTime := (frameInterval - elapsed) - broken
          broken := 0
          extendedDebtWarning := false
          overrunWarning := false }) ∧
    (frameInterval - elapsed < broken →
      frame_limiter frameInterval broken elapsed =
        { sleepTime := 0
          broken := broken - (frameInterval - elapsed)
          extendedDebtWarning := false
          overrunWarning := false }) := by
  constructor
  · intro hle
    simp [frame_limiter, h, hle]
  · intro hlt
    have : ¬ (frameInterval - elapsed ≥ broken) := by omega
    simp [frame_limiter, h, this]

/-- Witness for C1 at `frameInterval = 33`, `broken = 5`,
`elapsed = 20` (slack `13 ≥ 5`, sleep `8`) and at `broken = 20`
(slack `13 < 20`, sleep `0`, debt `20 - 13 = 7`). -/
theorem frame_limiter_ahead_of_schedule_witness :
    (20 < 33 ∧
      frame_limiter 33 5 20 =
        { sleepTime := 8, broken := 0
          extendedDebtWarning := false, overrunWarning := false }) ∧
    (20 < 33 ∧
      frame_limiter 33 20 20 =
        { sleepTime := 0, broken := 7
          extendedDebtWarning := false, overrunWarning := false }) :=
  ⟨⟨by decide, (frame_limiter_ahead_of_schedule 33 5 20 (by decide)).1 (by decide)⟩,
   ⟨by decide, (frame_limiter_ahead_of_schedule 33 20 20 (by decide)).2 (by decide)⟩⟩

/-- **C2, counterexample.** At `frameInterval = 33` with render times
`[53, 0, 0, 0]` the claimed trace (frame 2 sleeps 13 with debt
`20 → 7`, frame 3 sleeps 26 with debt `7 → 0`, frame 4 sleeps 33) is
false for the code: the sleeps are `[0, 13, 33, 33]` and the debt
trace is `[20, 0, 0, 0]`. -/
theorem pacer_scenario_counterexample :
    ¬ ((runLimiter 33 0 [53, 0, 0, 0]).map LimiterResult.sleepTime = [0, 13, 26, 33] ∧
       (runLimiter 33 0 [53, 0, 0, 0]).map LimiterResult.broken = [20, 7, 0, 0]) := by
  decide

/-- **C2, amended.** At `frameInterval = 33` with render times
`[53, 0, 0, 0]`: frame 1 overruns and sets debt to 20; frame 2 sleeps
13 and clears the debt to 0 (the `slack ≥ debt` branch repays it all at
once); frames 3 and 4 each sleep the full 33 with debt 0. -/
theorem pacer_scenario_amended :
    runLimiter 33 0 [53, 0, 0, 0] =
      [{ sleepTime := 0, broken := 20,
         extendedDebtWarning := false, overrunWarning := true },
       { sleepTime := 13, broken := 0,
         extendedDebtWarning := false, overrunWarning := false },
       { sleepTime := 33, broken := 0,
         extendedDebtWarning := false, overrunWarning := false },
       { sleepTime := 33, broken := 0,
         extendedDebtWarning := false, overrunWarning := false }] := by
  decide

/-- **C3, counterexample.** Both parts of the claim fail on the code.
With 30 consecutive frames of `elapsed = 65` at `frameInterval = 33`
(32 of overrun each) the debt only reaches `960 ≤ 1000`, so the
extended-debt advisory never fires in that run.  And debt exceeding
1000 does not imply the advisory: a single `elapsed = 1133` frame
leaves debt `1100 > 1000` without firing it (the check reads the debt
before the increment), and a subsequent ahead-of-schedule frame never
fires it either. -/
theorem advisory_counterexample :
    ((runLimiter 33 0 (List.replicate 30 65)).all fun r => !r.extendedDebtWarning) = true ∧
    ((runLimiter 33 0 (List.replicate 30 65)).getLast?.map LimiterResult.broken
      = some 960) ∧
    (frame_limiter 33 0 1133).broken = 1100 ∧
    (frame_limiter 33 0 1133).extendedDebtWarning = false ∧
    (frame_limiter 33 1100 16).extendedDebtWarning = false := by
  refine ⟨by decide, by decide, by decide, by decide, by decide⟩

/-- **C3, amended.** The extended-debt advisory fires exactly on
behind-schedule steps (`elapsed ≥ frameInterval`) whose debt on entry
already exceeds 1000ms — the overrun added by the current step is not
counted.  In particular 33 consecutive `elapsed = 65` frames at a 33ms
interval fire it exactly once (on the 33rd frame, entry debt
`32 · 32 = 1024`), and the pacer processes every frame of the run (a
total step function: no halt, no error return). -/
theorem advisory_amended :
    (∀ frameInterval broken elapsed : Nat,
        (frame_limiter frameInterval broken elapsed).extendedDebtWarning =
          (decide (frameInterval ≤ elapsed) && decide (1000 < broken))) ∧
    ((runLimiter 33 0 (List.replicate 33 65)).countP
        (fun r => r.extendedDebtWarning) = 1) ∧
    (runLimiter 33 0 (List.replicate 33 65)).length = 33 := by
  refine ⟨fun frameInterval broken elapsed => ?_, by decide, by decide⟩
  by_cases h : elapsed < frameInterval
  · have : ¬ frameInterval ≤ elapsed := by omega
    by_cases hb : frameInterval - elapsed ≥ broken <;>
      simp [frame_limiter, h, hb, this]
  · have : frameInterval ≤ elapsed := by omega
    simp [frame_limiter, h, this]

/-! ## Theorems: packet router -/

/-- **C4.** With distinct selected stream indices (the demuxer's best
video stream and best audio stream are different elementary streams),
the router's video output is exactly the order-preserving filter of the
input on the video index, the audio output is exactly the
order-preserving filter on the audio index, packets matching neither
index appear in neither output, and no packet appears in both. -/
theorem routePackets_partitions (vstreamId astreamId : Nat)
    (packets : List DemuxedPacket) (hne : vstreamId ≠ astreamId) :
    (routePackets vstreamId astreamId packets).1 =
      packets.filter (fun x => x.streamIndex == vstreamId) ∧
    (routePackets vstreamId astreamId packets).2 =
      packets.filter (fun x => x.streamIndex == astreamId) ∧
    (∀ p, p.streamIndex ≠ vstreamId → p.streamIndex ≠ astreamId →
      p ∉ (routePackets vstreamId astreamId packets).1 ∧
      p ∉ (routePackets vstreamId astreamId packets).2) ∧
    (∀ p, p ∈ (routePackets vstreamId astreamId packets).1 →
      p ∉ (routePackets vstreamId astreamId packets).2) := by
  have hv : (routePackets vstreamId astreamId packets).1 =
      packets.filter (fun x => x.streamIndex == vstreamId) := by
    simp [routePackets, List.partition_eq_filter_filter]
  have ha : (routePackets vstreamId astreamId packets).2 =
      packets.filter (fun x => x.streamIndex == astreamId) := by
    simp only [routePackets, List.partition_eq_filter_filter, List.filter_filter]
    refine List.filter_congr fun p _ => ?_
    by_cases h : p.streamIndex = astreamId
    · have : p.streamIndex ≠ vstreamId := by omega
      simp only [h, this, beq_iff_eq, bne_iff_ne, ne_eq]
      simp
      omega
    · simp [h]
  refine ⟨hv, ha, fun p hpv hpa => ?_, fun p hp => ?_⟩
  · constructor
    · rw [hv]
      simp [List.mem_filter, hpv]
    · rw [ha]
      simp [List.mem_filter, hpa]
  · rw [hv] at hp
    rw [ha]
    have : p.streamIndex = vstreamId := by simpa using (List.mem_filter.mp hp).2
    simp [List.mem_filter, this, hne]

/-- Witness for C4: stream indices 0 (video) and 1 (audio) over a
four-packet sequence containing one packet of a third stream. -/
theorem routePackets_partitions_witness :
    (0 : Nat) ≠ 1 ∧
    (routePackets 0 1 [⟨0, 10⟩, ⟨1, 11⟩, ⟨2, 12⟩, ⟨0, 13⟩]).1 =
      [⟨0, 10⟩, ⟨0, 13⟩] ∧
    (routePackets 0 1 [⟨0, 10⟩, ⟨1, 11⟩, ⟨2, 12⟩, ⟨0, 13⟩]).2 = [⟨1, 11⟩] := by
  have h := routePackets_partitions 0 1 [⟨0, 10⟩, ⟨1, 11⟩, ⟨2, 12⟩, ⟨0, 13⟩]
    (by decide)
  exact ⟨by decide, by rw [h.1]; decide, by rw [h.2.1]; decide⟩

/-! ## Theorems: decode pipeline skeleton -/

/-- A `map_while` stage ends the sequence at the first failure: nothing
after the failing element is emitted. -/
theorem mapWhileOk_append_failure {G T : Type} (f : G → Option T)
    (gs1 : List G) (g : G) (gs2 : List G) (hf : f g = none) :
    mapWhileOk f (gs1 ++ g :: gs2) = mapWhileOk f gs1 := by
  induction gs1 with
  | nil => simp [mapWhileOk, hf]
  | cons a as ih =>
    simp only [List.cons_append, mapWhileOk, List.append_eq]
    rw [ih]

/-- Splitting `pipelineSteps` over an append of submission lists. -/
theorem pipelineSteps_append {P F G : Type} (sendOk : Option P → Bool)
    (deliver : Option P → List F) (proc : F → Option G)
    (q : List F) (ss1 ss2 : List (Option P)) :
    pipelineSteps sendOk deliver proc q (ss1 ++ ss2) =
      ((pipelineSteps sendOk deliver proc q ss1).1 ++
        (pipelineSteps sendOk deliver proc
          (pipelineSteps sendOk deliver proc q ss1).2 ss2).1,
       (pipelineSteps sendOk deliver proc
          (pipelineSteps sendOk deliver proc q ss1).2 ss2).2) := by
  induction ss1 generalizing q with
  | nil => simp [pipelineSteps]
  | cons s ss ih =>
    rw [List.cons_append]
    by_cases hs : sendOk s = true
    · simp only [pipelineSteps, hs, if_true, List.append_eq]
      rw [ih]
      simp [List.append_assoc]
    · simp only [pipelineSteps, hs, if_false, List.append_eq]
      simp
      exact ih q

/-- A submission whose drain fails contributes nothing and the
pipeline continues from the post-drain queue. -/
theorem pipelineSteps_failed_batch {P F G : Type} (sendOk : Option P → Bool)
    (deliver : Option P → List F) (proc : F → Option G)
    (q : List F) (s : Option P) (ss : List (Option P))
    (hsend : sendOk s = true)
    (hfail : (drainLoop proc (q ++ deliver s)).1 = none) :
    pipelineSteps sendOk deliver proc q (s :: ss) =
      pipelineSteps sendOk deliver proc (drainLoop proc (q ++ deliver s)).2 ss := by
  simp only [pipelineSteps, hsend, if_true]
  rcases hd : drainLoop proc (q ++ deliver s) with ⟨b, q2⟩
  rw [hd] at hfail
  simp only at hfail
  subst hfail
  rcases hres : pipelineSteps sendOk deliver proc q2 ss with ⟨out, qf⟩
  simp [hd, hres]

/-- A pipeline run over a single successful submission: one drain of
the queue plus the submission's delivery. -/
theorem pipelineSteps_single {P F G : Type} (sendOk : Option P → Bool)
    (deliver : Option P → List F) (proc : F → Option G)
    (q : List F) (s : Option P) (hsend : sendOk s = true) :
    pipelineSteps sendOk deliver proc q [s] =
      ((drainLoop proc (q ++ deliver s)).1.getD [],
       (drainLoop proc (q ++ deliver s)).2) := by
  simp only [pipelineSteps, hsend, if_true]
  rcases hd : drainLoop proc (q ++ deliver s) with ⟨b, q2⟩
  simp

/-- A failed `send_packet`/`send_eof` makes the closure return `None`
before draining: the submission is skipped with the queue untouched. -/
theorem pipelineSteps_failed_send {P F G : Type} (sendOk : Option P → Bool)
    (deliver : Option P → List F) (proc : F → Option G)
    (q : List F) (s : Option P) (ss : List (Option P))
    (hsend : sendOk s = false) :
    pipelineSteps sendOk deliver proc q (s :: ss) =
      pipelineSteps sendOk deliver proc q ss := by
  simp [pipelineSteps, hsend]

/-- One per-frame stage failure inside the drain loop fails the whole
batch: outputs of frames processed earlier in the same drain are
discarded with it, and the frames not yet received stay queued. -/
theorem drainLoop_failure {F G : Type} (proc : F → Option G)
    (pre : List F) (f : F) (post : List F)
    (hpre : ∀ x ∈ pre, (proc x).isSome) (hf : proc f = none) :
    drainLoop proc (pre ++ f :: post) = (none, post) := by
  induction pre with
  | nil => simp [drainLoop, hf]
  | cons a as ih =>
    have ha : (proc a).isSome := hpre a (by simp)
    obtain ⟨g, hg⟩ := Option.isSome_iff_exists.mp ha
    have ih2 := ih fun x hx => hpre x (by simp [hx])
    simp only [List.cons_append, drainLoop, hg, List.append_eq, ih2]

/-- **C5, counterexample.** The claim says any decode or scale failure
ends the whole output sequence.  Concretely: two packets, each decoding
to one frame; the `scaler.run` pixel-format conversion fails on packet
1's frame (the per-frame stage maps frame `1` to `none`), yet the
output still contains packet 2's frame — the `filter_map` closure's
`.ok()?` merely skips packet 1's batch and the pipeline continues. -/
theorem video_failure_counterexample :
    (fun f => if f = 1 then none else some f) (1 : Nat) = (none : Option Nat) ∧
    videoPipeline (fun _ => true)
        (fun s => match s with | some p => [p] | none => [])
        (fun f => if f = 1 then none else some f)
        (fun g => some g) [1, 2] = [2] := by
  exact ⟨by decide, by decide⟩

/-- **C5, amended.** Only a failure of the per-frame letterbox rescale
(`retain_aspect_ratio_scale`, consumed through `map_while(Result::ok)`)
terminates the remaining Display Frame sequence; a decoder send failure
or a `scaler.run` pixel-format-conversion failure while draining a
packet discards only that packet's batch, and the pipeline continues
with frames from later packets. -/
theorem video_failure_amended :
    (∀ (G T : Type) (rars : G → Option T) (gs1 : List G) (g : G) (gs2 : List G),
      rars g = none →
      mapWhileOk rars (gs1 ++ g :: gs2) = mapWhileOk rars gs1) ∧
    (∀ (P F G : Type) (sendOk : Option P → Bool) (deliver : Option P → List F)
      (swscale : F → Option G) (q : List F) (s : Option P) (ss : List (Option P)),
      sendOk s = true →
      (drainLoop swscale (q ++ deliver s)).1 = none →
      pipelineSteps sendOk deliver swscale q (s :: ss) =
        pipelineSteps sendOk deliver swscale (drainLoop swscale (q ++ deliver s)).2 ss) ∧
    (∀ (P F G : Type) (sendOk : Option P → Bool) (deliver : Option P → List F)
      (swscale : F → Option G) (q : List F) (s : Option P) (ss : List (Option P)),
      sendOk s = false →
      pipelineSteps sendOk deliver swscale q (s :: ss) =
        pipelineSteps sendOk deliver swscale q ss) :=
  ⟨fun _ _ rars gs1 g gs2 hf => mapWhileOk_append_failure rars gs1 g gs2 hf,
   fun _ _ _ sendOk deliver swscale q s ss hsend hfail =>
    pipelineSteps_failed_batch sendOk deliver swscale q s ss hsend hfail,
   fun _ _ _ sendOk deliver swscale q s ss hsend =>
    pipelineSteps_failed_send sendOk deliver swscale q s ss hsend⟩

/-- Witness for C5 (amended): the `map_while` stage ends the sequence
at a concrete failing element `5`. -/
theorem video_failure_amended_witness :
    (fun n => if n = 5 then none else some n) (5 : Nat) = (none : Option Nat) ∧
    mapWhileOk (fun n => if n = 5 then none else some (n : Nat))
        ([1, 2] ++ 5 :: [7, 8]) =
      mapWhileOk (fun n => if n = 5 then none else some (n : Nat)) [1, 2] :=
  ⟨by decide,
   video_failure_amended.1 Nat Nat (fun n => if n = 5 then none else some n)
     [1, 2] 5 [7, 8] (by decide)⟩

/-- **C6, counterexample.** The claim says a resample failure drops
only the failing frame's output.  Concretely: one packet decodes to
frames `[1, 2]`; frame `1` resamples fine (to `10`) and frame `2`'s
resample fails — but the pipeline's output is empty: the closure's
`.ok()?` throws away the whole batch vector, including frame `1`'s
already-resampled output. -/
theorem audio_failure_counterexample :
    (fun f => if f = 2 then none else some (10 * f)) (1 : Nat) = some 10 ∧
    audioPipeline (fun _ => true)
        (fun s => match s with
          | some p => if p = 1 then [1, 2] else []
          | none => [])
        (fun f => if f = 2 then none else some (10 * f)) [1] = ([] : List Nat) := by
  exact ⟨by decide, by decide⟩

/-- **C6, amended.** A resample failure while draining a packet's batch
discards that packet's whole batch — the failing frame's output and the
outputs of frames resampled earlier in the same drain — and leaves the
frames not yet received in the decoder; the pipeline itself continues,
so output drained for other packets still appears.  Concretely, with
packet 1 decoding to `[1, 2]` (resample fails on `2`) and packet 2
decoding to `[3]`, the output is exactly packet 2's `[30]`. -/
theorem audio_failure_amended :
    (∀ (F G : Type) (resample : F → Option G) (pre : List F) (f : F) (post : List F),
      (∀ x ∈ pre, (resample x).isSome) → resample f = none →
      drainLoop resample (pre ++ f :: post) = (none, post)) ∧
    (∀ (P F G : Type) (sendOk : Option P → Bool) (deliver : Option P → List F)
      (resample : F → Option G) (q : List F) (s : Option P) (ss : List (Option P)),
      sendOk s = true →
      (drainLoop resample (q ++ deliver s)).1 = none →
      pipelineSteps sendOk deliver resample q (s :: ss) =
        pipelineSteps sendOk deliver resample (drainLoop resample (q ++ deliver s)).2 ss) ∧
    audioPipeline (fun _ => true)
        (fun s => match s with
          | some p => if p = 1 then [1, 2] else if p = 2 then [3] else []
          | none => [])
        (fun f => if f = 2 then none else some (10 * f)) [1, 2] = [30] :=
  ⟨fun _ _ resample pre f post hpre hf => drainLoop_failure resample pre f post hpre hf,
   fun _ _ _ sendOk deliver resample q s ss hsend hfail =>
    pipelineSteps_failed_batch sendOk deliver resample q s ss hsend hfail,
   by decide⟩

/-- Witness for C6 (amended): a concrete drain `[7] ++ 2 :: [9]` whose
middle frame fails to resample loses the batch and keeps `[9]`
queued. -/
theorem audio_failure_amended_witness :
    (∀ x ∈ [(7 : Nat)], ((fun f => if f = 2 then none else some (10 * f)) x).isSome) ∧
    (fun f => if f = 2 then none else some (10 * (f : Nat))) 2 = none ∧
    drainLoop (fun f => if f = 2 then none else some (10 * (f : Nat)))
        ([7] ++ 2 :: [9]) = (none, [9]) :=
  ⟨by decide, by decide,
   audio_failure_amended.1 Nat Nat (fun f => if f = 2 then none else some (10 * f))
     [7] 2 [9] (by decide) (by decide)⟩

/-- **C8.** In both pipelines the submission sequence is the real
packets followed by exactly one empty sentinel, in last position; the
sentinel triggers `send_eof`, and (when the EOF send succeeds) the
pipeline's output is the output of the real packets followed by one
final drain of everything the decoder still holds (its queued frames
plus whatever the flush delivers).  The video pipeline consumes the
same flattened stream through its `map_while` rescale stage, so its
frames too arise only from per-submission drains. -/
theorem sentinel_flush (P F G : Type) (sendOk : Option P → Bool)
    (deliver : Option P → List F) (proc : F → Option G) (packets : List P) :
    withSentinel packets = packets.map some ++ [none] ∧
    (withSentinel packets).countP Option.isNone = 1 ∧
    (withSentinel packets).getLast? = some none ∧
    (sendOk none = true →
      audioPipeline sendOk deliver proc packets =
        (pipelineSteps sendOk deliver proc [] (packets.map some)).1 ++
        (drainLoop proc
          ((pipelineSteps sendOk deliver proc [] (packets.map some)).2 ++
            deliver none)).1.getD []) ∧
    (∀ (T : Type) (rars : G → Option T),
      videoPipeline sendOk deliver proc rars packets =
        mapWhileOk rars (audioPipeline sendOk deliver proc packets)) := by
  refine ⟨rfl, ?_, ?_, fun hsend => ?_, fun T rars => rfl⟩
  · simp [withSentinel, List.countP_append, List.countP_map]
  · simp [withSentinel]
  · rw [audioPipeline, withSentinel, pipelineSteps_append,
      pipelineSteps_single sendOk deliver proc _ none hsend]

/-- Witness for C8: the decoder holds back a frame (`9`) until the
flush; the pipeline's single real packet yields nothing and the
sentinel drain emits the held frame. -/
theorem sentinel_flush_witness :
    ((fun _ => true) (none : Option Nat)) = true ∧
    audioPipeline (fun _ => true)
        (fun s : Option Nat => match s with | none => [9] | some _ => [])
        (fun f => some (f : Nat)) [1] =
      (pipelineSteps (fun _ => true)
          (fun s : Option Nat => match s with | none => [9] | some _ => [])
          (fun f => some (f : Nat)) [] ([1].map some)).1 ++
        (drainLoop (fun f => some (f : Nat))
          ((pipelineSteps (fun _ => true)
              (fun s : Option Nat => match s with | none => [9] | some _ => [])
              (fun f => some (f : Nat)) [] ([1].map some)).2 ++
            (fun s : Option Nat => match s with | none => [9] | some _ => []) none)).1.getD [] :=
  ⟨rfl,
   (sentinel_flush Nat Nat Nat (fun _ => true)
      (fun s : Option Nat => match s with | none => [9] | some _ => [])
      (fun f => some f) [1]).2.2.2.1 rfl⟩

/-! ## Theorems: render callback -/

/-- On an exhausted frame sequence the `let Some(texture) = ... else
return` path runs: the sound check has already happened, nothing else
does. -/
theorem draw_video_by_frame_empty {T : Type} (now : Nat) (s : PlayerState T)
    (h : s.frames = []) :
    draw_video_by_frame now s =
      { state := s, soundTriggered := s.frames_played == 0,
        drawn := none, slept := none } := by
  rcases s with ⟨fs, fp, fi, inst, br⟩
  simp only at h
  subst h
  rfl

/-- Once `frames_played` is nonzero it stays nonzero, and no callback
in a run triggers the sound. -/
theorem runCallbacks_no_retrigger {T : Type} (s : PlayerState T)
    (nows : List Nat) (h : s.frames_played ≠ 0) :
    (runCallbacks s nows).countP (fun o => o.soundTriggered) = 0 := by
  induction nows generalizing s with
  | nil => rfl
  | cons n ns ih =>
    have htrig : (draw_video_by_frame n s).soundTriggered = false := by
      rcases s with ⟨fs, fp, fi, inst, br⟩
      cases fs <;> simp_all [draw_video_by_frame]
    have hkeep : (draw_video_by_frame n s).state.frames_played ≠ 0 := by
      rcases s with ⟨fs, fp, fi, inst, br⟩
      cases fs <;> simp_all [draw_video_by_frame]
    simp [runCallbacks, List.countP_cons, htrig, ih _ hkeep]

/-- **C7, counterexample.** With a video frame sequence that yields no
frames, `frames_played` never leaves 0, so `play_sound_once` runs again
on the second render callback — the claim's "never retriggered on any
subsequent callback, for every possible video frame sequence (including
one that yields no frames)" is false. -/
theorem sound_retrigger_counterexample :
    (draw_video_by_frame 10 (⟨[], 0, 33, 0, 0⟩ : PlayerState Nat)).soundTriggered
      = true ∧
    (draw_video_by_frame 20
        (draw_video_by_frame 10 (⟨[], 0, 33, 0, 0⟩ : PlayerState Nat)).state).soundTriggered
      = true := by
  exact ⟨by decide, by decide⟩

/-- **C7, amended.** `play_sound_once` runs on every callback that
starts with `frames_played = 0`, i.e. until the first frame has been
pulled.  For a frame sequence yielding at least one frame this is
exactly the first callback — triggered once, never retriggered; for a
sequence yielding no frames it is retriggered on every callback. -/
theorem sound_trigger_amended {T : Type} (t : T) (fs : List T)
    (frameInterval t0 : Nat) (nows : List Nat) :
    (nows ≠ [] →
      (runCallbacks (⟨t :: fs, 0, frameInterval, t0, 0⟩ : PlayerState T) nows).countP
        (fun o => o.soundTriggered) = 1) ∧
    (runCallbacks (⟨[], 0, frameInterval, t0, 0⟩ : PlayerState T) nows).countP
        (fun o => o.soundTriggered) = nows.length := by
  constructor
  · intro hne
    rcases nows with _ | ⟨n, ns⟩
    · exact absurd rfl hne
    · have hstep : (draw_video_by_frame n
          (⟨t :: fs, 0, frameInterval, t0, 0⟩ : PlayerState T)).state.frames_played
            = 1 := rfl
      have h0 := runCallbacks_no_retrigger
        (draw_video_by_frame n (⟨t :: fs, 0, frameInterval, t0, 0⟩ : PlayerState T)).state
        ns (by rw [hstep]; exact one_ne_zero)
      simp only [runCallbacks, List.countP_cons, h0]
      rfl
  · induction nows with
    | nil => rfl
    | cons n ns ih =>
      have hempty := draw_video_by_frame_empty n
        (⟨[], 0, frameInterval, t0, 0⟩ : PlayerState T) rfl
      simp only [runCallbacks, List.countP_cons, hempty, List.length_cons]
      simp only [hempty] at ih ⊢
      rw [ih]
      rfl

/-- Witness for C7 (amended) at two concrete callbacks over a
two-frame sequence. -/
theorem sound_trigger_amended_witness :
    ([5, 6] ≠ ([] : List Nat)) ∧
    (runCallbacks (⟨[7, 8], 0, 33, 0, 0⟩ : PlayerState Nat) [5, 6]).countP
        (fun o => o.soundTriggered) = 1 :=
  ⟨by decide, (sound_trigger_amended 7 [8] 33 0 [5, 6]).1 (by decide)⟩

/-- **C9.** A render callback on an exhausted video frame sequence
leaves the whole player state unchanged — `frames_played`, the clock
reference `instant`, and the `broken` debt keep their values — and
`frame_limiter` is skipped, so no sleep occurs. -/
theorem draw_exhausted_state_unchanged {T : Type} (now : Nat)
    (s : PlayerState T) (h : s.frames = []) :
    (draw_video_by_frame now s).state = s ∧
    (draw_video_by_frame now s).slept = none := by
  rw [draw_video_by_frame_empty now s h]
  exact ⟨rfl, rfl⟩

/-- Witness for C9 on a concrete exhausted player state. -/
theorem draw_exhausted_state_unchanged_witness :
    ((⟨[], 5, 33, 100, 7⟩ : PlayerState Nat).frames = []) ∧
    (draw_video_by_frame 240 (⟨[], 5, 33, 100, 7⟩ : PlayerState Nat)).state
      = (⟨[], 5, 33, 100, 7⟩ : PlayerState Nat) ∧
    (draw_video_by_frame 240 (⟨[], 5, 33, 100, 7⟩ : PlayerState Nat)).slept = none :=
  ⟨rfl,
   (draw_exhausted_state_unchanged 240 (⟨[], 5, 33, 100, 7⟩ : PlayerState Nat) rfl).1,
   (draw_exhausted_state_unchanged 240 (⟨[], 5, 33, 100, 7⟩ : PlayerState Nat) rfl).2⟩

/-! ## Theorems: waveform serialization -/

/-- `chunks_exact` yields exactly `length / n` chunks. -/
theorem chunksExact_length {α : Type} (n : Nat) (l : List α) :
    (chunksExact n l).length = l.length / n := by
  rw [chunksExact]
  by_cases h : 0 < n ∧ n ≤ l.length
  · rw [dif_pos h, List.length_cons, chunksExact_length n (l.drop n), List.length_drop,
      Nat.div_eq l.length n, if_pos h]
  · rw [dif_neg h, Nat.div_eq l.length n, if_neg h]
    rfl
termination_by l.length
decreasing_by
  simp only [List.length_drop]
  omega

/-- A slice shorter than the chunk size yields no chunk at all. -/
theorem chunksExact_short {α : Type} (n : Nat) (l : List α)
    (h : l.length < n) : chunksExact n l = [] := by
  rw [chunksExact, dif_neg]
  omega

/-- `chunks_exact` distributes over an append at a chunk boundary. -/
theorem chunksExact_append {α : Type} (n : Nat) (full trailing : List α)
    (hdvd : n ∣ full.length) :
    chunksExact n (full ++ trailing) =
      chunksExact n full ++ chunksExact n trailing := by
  by_cases h0 : 0 < n
  · by_cases hfull : n ≤ full.length
    · have h1 : 0 < n ∧ n ≤ (full ++ trailing).length := by
        constructor
        · exact h0
        · simp only [List.length_append]
          omega
      conv_lhs => rw [chunksExact]
      rw [dif_pos h1]
      conv_rhs => rw [chunksExact]
      rw [dif_pos ⟨h0, hfull⟩, List.take_append_of_le_length hfull,
        List.drop_append_of_le_length hfull, List.cons_append]
      have hrec := chunksExact_append n (full.drop n) trailing
        (by rw [List.length_drop]; exact Nat.dvd_sub' hdvd dvd_rfl)
      rw [hrec]
    · have hlen : full.length = 0 := by
        rcases Nat.eq_zero_or_pos full.length with h | h
        · exact h
        · exact absurd (Nat.le_of_dvd h hdvd) hfull
      have hnil : full = [] := List.eq_nil_of_length_eq_zero hlen
      subst hnil
      have hz : chunksExact n ([] : List α) = [] := by
        rw [chunksExact, dif_neg]
        omega
      rw [List.nil_append, hz, List.nil_append]
  · have hn : n = 0 := by omega
    subst hn
    have hz : ∀ l : List α, chunksExact 0 l = [] := fun l => by
      rw [chunksExact, dif_neg]
      omega
    rw [hz, hz, hz]
    rfl
termination_by full.length
decreasing_by
  simp only [List.length_drop]
  omega

/-- Length of a `flatMap` whose pieces all have the same length. -/
theorem flatMap_const_length {β γ : Type} (xs : List β) (f : β → List γ) (c : Nat)
    (h : ∀ x ∈ xs, (f x).length = c) : (xs.flatMap f).length = xs.length * c := by
  induction xs with
  | nil => simp
  | cons a as ih =>
    rw [List.flatMap_cons, List.length_append, h a (by simp),
      ih fun x hx => h x (by simp [hx]), List.length_cons]
    ring

/-- **C10.** `build_wav_from_raw` declares the header from the first
block and serializes every block (the first included — `peek` does not
consume) by cutting its bytes into whole interleaved frames of
`2 * channels` bytes using the FIRST block's channel count, regardless
of the block's own layout; each frame contributes one sample per
channel, so a block of `len` bytes contributes exactly
`len / (2·c) · c` samples, and trailing bytes that do not fill a whole
frame are silently discarded. -/
theorem build_wav_consumption :
    (∀ (first : PcmAudioFrame) (rest : List PcmAudioFrame),
      build_wav_from_raw (first :: rest) =
        some ({ channels := first.channels
                sample_rate := first.rate
                bits_per_sample := 16
                sample_format_is_int := true },
              (first :: rest).flatMap fun b => blockSamples first.channels b.data)) ∧
    (∀ (c : Nat) (data : List Nat),
      (blockSamples c data).length = data.length / (2 * c) * c) ∧
    (∀ (c : Nat) (full trailing : List Nat),
      (2 * c) ∣ full.length → trailing.length < 2 * c →
      blockSamples c (full ++ trailing) = blockSamples c full) := by
  refine ⟨fun first rest => rfl, fun c data => ?_, fun c full trailing hdvd hshort => ?_⟩
  · rw [blockSamples,
      flatMap_const_length _ _ c (fun x _ => by simp),
      chunksExact_length]
  · rw [blockSamples, blockSamples, chunksExact_append _ _ _ hdvd,
      chunksExact_short _ _ hshort, List.append_nil]

/-- Witness for C10: with channel count 1 (frame size 2), a 5-byte
block `[1, 2, 3, 4, 5]` serializes exactly the two whole frames —
samples `[513, 1027]` — discarding the trailing byte `5`. -/
theorem build_wav_consumption_witness :
    ((2 * 1 : Nat) ∣ ([1, 2, 3, 4] : List Nat).length) ∧
    (([5] : List Nat).length < 2 * 1) ∧
    blockSamples 1 ([1, 2, 3, 4] ++ [5]) = blockSamples 1 [1, 2, 3, 4] ∧
    blockSamples 1 [1, 2, 3, 4, 5] = [513, 1027] :=
  ⟨by decide, by decide,
   build_wav_consumption.2.2 1 [1, 2, 3, 4] [5] (by decide) (by decide),
   by simp [blockSamples, chunksExact, i16FromLeBytes, List.range_succ]⟩

end MacroquadVideo
